import Mathlib

/-!
# Verification of the binlog-stream CDC core

Shallow embedding of the parts of `src/core/binlog_stream_modular.c`,
`src/core/pg_stream_modular.c` and `src/core/publisher_loader.c` that the
claims talk about, together with theorems settling each claim.

Bytes are modelled as `Nat` values (with `< 256` hypotheses where the C
type guarantees it), machine integers as `Nat`/`Int` with explicit
wrapping, and C strings as Lean `String`/`List Char`.
-/

namespace BinlogStream

/-! ## Little-endian byte readers (binlog_stream_modular.c, `le16`..`le64`) -/

/-- `le16`: `p[0] | p[1] << 8` over unsigned bytes. -/
def le16 (p : List Nat) : Nat :=
  p.getD 0 0 ||| (p.getD 1 0) <<< 8

/-- `le24`: `p[0] | p[1] << 8 | p[2] << 16`. -/
def le24 (p : List Nat) : Nat :=
  p.getD 0 0 ||| (p.getD 1 0) <<< 8 ||| (p.getD 2 0) <<< 16

/-- `le32`: `p[0] | p[1] << 8 | p[2] << 16 | p[3] << 24`. -/
def le32 (p : List Nat) : Nat :=
  p.getD 0 0 ||| (p.getD 1 0) <<< 8 ||| (p.getD 2 0) <<< 16 ||| (p.getD 3 0) <<< 24

/-- `le64`: the loop `for (i = 7; i >= 0; --i) v = (v << 8) | p[i]`. -/
def le64 (p : List Nat) : Nat :=
  [7, 6, 5, 4, 3, 2, 1, 0].foldl (fun v i => (v <<< 8) ||| p.getD i 0) 0

/-- Value of a C cast to a signed two's-complement integer of `w` bits,
applied to an unsigned value `v < 2^w` (e.g. `(int8_t)x`, `(int16_t)x`). -/
def c_signed_cast (w : Nat) (v : Nat) : Int :=
  if v < 2 ^ (w - 1) then (v : Int) else (v : Int) - 2 ^ w

/-! ## Integer column rendering (`append_column_value_to_json`)

The integer branches of `append_column_value_to_json`.  The model returns
the decimal integer printed into the JSON buffer by `snprintf` and the
number of input bytes consumed (`return p + k`):

* `MT_TINY`     : `snprintf("%d", (int8_t)*p)`, consume 1;
* `MT_SHORT`    : `snprintf("%d", (int16_t)le16(p))`, consume 2;
* `MT_INT24`    : `v = le24(p); if (v & 0x800000) v |= ~0xFFFFFF;`
                  `snprintf("%d", v)`, consume 3 (the `|=` on a 32-bit
                  signed int makes the value `le24(p) - 2^24`);
* `MT_LONG`     : `snprintf("%u", le32(p))` (unsigned!), consume 4;
* `MT_LONGLONG` : `snprintf("%llu", le64(p))` (unsigned!), consume 8. -/

inductive MysqlIntType where
  | tiny
  | short
  | int24
  | long
  | longlong
deriving DecidableEq, Repr

def append_column_value_to_json (t : MysqlIntType) (p : List Nat) : Int × Nat :=
  match t with
  | .tiny => (c_signed_cast 8 (p.getD 0 0), 1)
  | .short => (c_signed_cast 16 (le16 p), 2)
  | .int24 =>
      let v := le24 p
      (if v &&& 0x800000 ≠ 0 then (v : Int) - 2 ^ 24 else (v : Int), 3)
  | .long => ((le32 p : Int), 4)
  | .longlong => ((le64 p : Int), 8)

/-- Byte width of each integer type family (1/2/3/4/8). -/
def mysql_int_width (t : MysqlIntType) : Nat :=
  match t with
  | .tiny => 1
  | .short => 2
  | .int24 => 3
  | .long => 4
  | .longlong => 8

/-- The unsigned little-endian value of the bytes of a column of type `t`. -/
def mysql_le_value (t : MysqlIntType) (p : List Nat) : Nat :=
  match t with
  | .tiny => p.getD 0 0
  | .short => le16 p
  | .int24 => le24 p
  | .long => le32 p
  | .longlong => le64 p

/-! ## Transaction state (binlog_stream_modular.c)

Globals `current_txn_id` (a 37-byte C string, empty initially) and
`in_transaction`.  `generate_txn_id` writes a fresh UUID via
`uuid_unparse_lower`, always a 36-character (hence non-empty) string; the
model passes the freshly generated string in as a parameter. -/

structure MysqlTxnState where
  txn : String
  inTx : Bool
deriving DecidableEq, Repr

/-- The initial values of `current_txn_id` / `in_transaction`. -/
def mysql_txn_init : MysqlTxnState := { txn := "", inTx := false }

/-- Classification of a QUERY event's SQL prefix in `parse_query`. -/
inductive QueryKind where
  | qBegin
  | qCommit
  | qRollback
  | qDdl
  | qOther
deriving DecidableEq, Repr

/-- Transaction-state effect of `parse_query`:
`if (is_begin) { in_transaction = 1; generate_txn_id(...); }`
`else if (is_ddl && !in_transaction) generate_txn_id(...);`
`else if (!in_transaction) generate_txn_id(...);`
and at the end `if (is_commit || is_rollback) { in_transaction = 0;`
`current_txn_id[0] = 0; }`. -/
def parse_query_txn (k : QueryKind) (fresh : String) (s : MysqlTxnState) :
    MysqlTxnState :=
  let s1 :=
    if k = .qBegin then { txn := fresh, inTx := true }
    else if s.inTx = false then { s with txn := fresh }
    else s
  if k = .qCommit ∨ k = .qRollback then { txn := "", inTx := false } else s1

/-- Transaction-state effect of the `EVT_XID` branch of `parse_event`:
`in_transaction = 0; current_txn_id[0] = 0;`. -/
def parse_xid_txn (_s : MysqlTxnState) : MysqlTxnState :=
  { txn := "", inTx := false }

/-- Transaction-state effect of `parse_table_map`: when the table is in
the capture set (otherwise the function returns before this point),
`if (!in_transaction) { generate_txn_id(...); in_transaction = 1; }`. -/
def parse_table_map_txn (captured : Bool) (fresh : String)
    (s : MysqlTxnState) : MysqlTxnState :=
  if captured = true ∧ s.inTx = false then { txn := fresh, inTx := true } else s

/-- The MySQL events distinguished by `parse_event`, restricted to what
they do to the transaction state (row/rotate/format events leave it
untouched). -/
inductive MysqlEvent where
  | query (k : QueryKind)
  | xid
  | tableMap (captured : Bool)
  | rows
  | rotate
  | formatDesc
deriving DecidableEq, Repr

/-- Transaction-state effect of one `parse_event` call; `fresh` is the
UUID string `generate_txn_id` would produce if called. -/
def parse_event_txn (e : MysqlEvent) (fresh : String) (s : MysqlTxnState) :
    MysqlTxnState :=
  match e with
  | .query k => parse_query_txn k fresh s
  | .xid => parse_xid_txn s
  | .tableMap captured => parse_table_map_txn captured fresh s
  | .rows => s
  | .rotate => s
  | .formatDesc => s

/-- Transaction state after a sequence of events starting from the
initial globals. -/
def run_mysql_events (evs : List (MysqlEvent × String)) : MysqlTxnState :=
  evs.foldl (fun s pr => parse_event_txn pr.1 pr.2 s) mysql_txn_init

/-! ## Checkpoint policy (C5)

MySQL (`parse_event` epilogue plus `parse_rotate`): a ROTATE event saves
inside `parse_rotate` whenever `save_last_position` is set and resets
`events_since_save`; then, for every event of any type, the epilogue runs
`events_since_save++` followed by the two-knob policy.

PostgreSQL: row messages (`parse_insert/update/delete_message`) only run
`events_since_save++`; `parse_commit_message` runs the two-knob policy. -/

inductive MysqlEventKind where
  | query
  | xid
  | formatDesc
  | rotate
  | tableMap
  | writeRows
  | updateRows
  | deleteRows
deriving DecidableEq, Repr

/-- Which MySQL event kinds are row events or commit boundaries (the
kinds the claim allows a checkpoint after, `count == 0` case). -/
def mysql_event_is_row_or_commit (t : MysqlEventKind) : Bool :=
  match t with
  | .xid => true
  | .writeRows => true
  | .updateRows => true
  | .deleteRows => true
  | _ => false

/-- Checkpoint effect of one MySQL `parse_event` call: given
`save_last_position`, `save_position_event_count` and the value of
`events_since_save` before the event, returns whether `save_position`
was called at least once during the event and the new
`events_since_save`. -/
def mysql_parse_event_checkpoint (save_last : Bool) (cnt : Nat)
    (t : MysqlEventKind) (es : Nat) : Bool × Nat :=
  -- parse_rotate: if(save_last_position){ save_position(...); events_since_save = 0; }
  let rotSaved := t = .rotate ∧ save_last = true
  let es1 := if rotSaved then 0 else es
  -- epilogue: events_since_save++; then the two-knob policy
  let es2 := es1 + 1
  if save_last = true then
    if cnt > 0 then
      if es2 ≥ cnt then (true, 0) else (decide rotSaved, es2)
    else (true, 0)
  else (decide rotSaved, es2)

/-- Checkpoint effect of one PostgreSQL row message
(`parse_insert_message` etc.): only `events_since_save++`. -/
def pg_row_message_checkpoint (es : Nat) : Bool × Nat :=
  (false, es + 1)

/-- Checkpoint effect of `parse_commit_message` (pg_stream_modular.c):
the `events_since_save++` line is commented out; only the two-knob
policy runs. -/
def pg_commit_message_checkpoint (save_last : Bool) (cnt : Nat) (es : Nat) :
    Bool × Nat :=
  if save_last = true then
    if cnt > 0 then
      if es ≥ cnt then (true, 0) else (false, es)
    else (true, 0)
  else (false, es)

/-! ## Publisher ring queue (publisher_loader.c)

The queue fields of `publisher_instance_t`: an array of `q_capacity`
event pointers (`calloc`ed to NULL, modelled as `Option α`), head, tail,
count, and the `events_dropped` counter. -/

structure PubQueue (α : Type) where
  slots : List (Option α)
  q_capacity : Nat
  q_head : Nat
  q_tail : Nat
  q_count : Nat
  events_dropped : Nat
deriving DecidableEq, Repr

/-- `PUBLISHER_QUEUE_CAPACITY`. -/
def PUBLISHER_QUEUE_CAPACITY : Nat := 1024

/-- `queue_init`, with `inst->q_capacity` already set by
`publisher_manager_load_plugin`: allocate `q_capacity` NULL slots when it
is positive, else `PUBLISHER_QUEUE_CAPACITY`; zero head/tail/count. -/
def queue_init (α : Type) (cap : Nat) : PubQueue α :=
  let c := if cap > 0 then cap else PUBLISHER_QUEUE_CAPACITY
  { slots := List.replicate c none
    q_capacity := c
    q_head := 0
    q_tail := 0
    q_count := 0
    events_dropped := 0 }

/-- `publisher_instance_enqueue` (the deep copy of the event is modelled
as the event itself; `active` is `inst->active`).  Returns the C return
value and the new queue state.  On a full queue: free the copy, bump
`events_dropped`, return -1 leaving the ring untouched. -/
def publisher_instance_enqueue {α : Type} (active : Bool) (q : PubQueue α)
    (e : α) : Int × PubQueue α :=
  if active = false then (-1, q)
  else if q.q_count ≥ q.q_capacity then
    (-1, { q with events_dropped := q.events_dropped + 1 })
  else
    (0, { q with
          slots := q.slots.set q.q_tail (some e)
          q_tail := (q.q_tail + 1) % q.q_capacity
          q_count := q.q_count + 1 })

/-- The dequeue step inside `publisher_worker_thread`, which runs only
when `q_count > 0`: take `queue[q_head]`, NULL the slot, advance head
modulo capacity, decrement count. -/
def publisher_worker_dequeue {α : Type} (q : PubQueue α) :
    Option α × PubQueue α :=
  let idx := q.q_head
  (q.slots.getD idx none,
   { q with
     slots := q.slots.set idx none
     q_head := (q.q_head + 1) % q.q_capacity
     q_count := q.q_count - 1 })

/-- The ring invariant of a publisher instance's queue: capacity
positive and equal to the slot-array length, head in range,
`q_tail = (q_head + q_count) % q_capacity`, `q_count ≤ q_capacity`, and
every one of the `q_count` slots starting at `q_head` holds a pending
event. -/
def ring_inv {α : Type} (q : PubQueue α) : Prop :=
  q.slots.length = q.q_capacity ∧
  0 < q.q_capacity ∧
  q.q_count ≤ q.q_capacity ∧
  q.q_head < q.q_capacity ∧
  q.q_tail = (q.q_head + q.q_count) % q.q_capacity ∧
  ∀ i < q.q_count, (q.slots.getD ((q.q_head + i) % q.q_capacity) none).isSome = true

/-! ## Publisher manager instance list (C4)

`publisher_manager_load_plugin` prepends the new instance:
`inst->next = manager->instances; manager->instances = inst;`.
`publish_event` (binlog_stream_modular.c) walks `manager->instances`
following `next`, offering the event to each instance in list order. -/

structure PublisherInstanceM where
  name : String
  active : Bool
  databases : List String
deriving DecidableEq, Repr

/-- The instance-list effect of `publisher_manager_load_plugin`: inactive
configurations are rejected (`if(!config->active) return -1;`), active
ones are prepended to `manager->instances`. -/
def publisher_manager_load_plugin (instances : List PublisherInstanceM)
    (name : String) (active : Bool) (databases : List String) :
    List PublisherInstanceM :=
  if active = false then instances
  else { name := name, active := active, databases := databases } :: instances

/-- `publisher_should_publish`: active, and either no database filter or
the event's db is in the filter list. -/
def publisher_should_publish (inst : PublisherInstanceM) (db : String) : Bool :=
  inst.active && (inst.databases.isEmpty || inst.databases.contains db)

/-- The order in which `publish_event` offers one event to the loaded
sinks: the `while (inst) ... inst = inst->next` loop visits every
instance of `manager->instances` in list order; each visit checks
`publisher_should_publish` and enqueues when it passes.  The model
records, in visit order, each instance's name and whether the event
passed its filter. -/
def publish_event_offers (instances : List PublisherInstanceM)
    (db : String) : List (String × Bool) :=
  instances.map (fun inst => (inst.name, publisher_should_publish inst db))

/-! ## Sink configuration accessors (C8, `plugin_get_config_bool`) -/

/-- The whitespace characters skipped by `plugin_get_config_bool`'s
leading-space loop: `' '`, `'\t'`, `'\n'`, `'\r'`. -/
def config_space (c : Char) : Bool :=
  c = ' ' || c = '\t' || c = '\n' || c = '\r'

/-- The `while (*val == ' ' || ...) val++;` loop. -/
def skip_leading_spaces : List Char → List Char
  | [] => []
  | c :: rest => if config_space c then skip_leading_spaces rest else c :: rest

/-- ASCII `tolower`, as used by `strcasecmp`. -/
def c_tolower (c : Char) : Char :=
  if 'A' ≤ c ∧ c ≤ 'Z' then Char.ofNat (c.toNat + 32) else c

/-- `strcasecmp(a, b) == 0`. -/
def strcasecmp_eq (a b : List Char) : Bool :=
  a.map c_tolower = b.map c_tolower

/-- `plugin_get_config_bool`: `val = plugin_get_config(config, key)` is
`none` for a missing key.  Skip leading whitespace; empty rest falls to
the default; then `strcmp` against `"1"`/`"0"` and `strcasecmp` against
`true/yes/on/false/no/off`; anything else falls to the default. -/
def plugin_get_config_bool (val : Option String) (default_val : Bool) : Bool :=
  match val with
  | none => default_val
  | some v =>
    let s := skip_leading_spaces v.data
    if s = [] then default_val
    else if s = "1".data then true
    else if s = "0".data then false
    else if strcasecmp_eq s "true".data then true
    else if strcasecmp_eq s "yes".data then true
    else if strcasecmp_eq s "on".data then true
    else if strcasecmp_eq s "false".data then false
    else if strcasecmp_eq s "no".data then false
    else if strcasecmp_eq s "off".data then false
    else default_val

/-- The spec's description of the `get_bool` lookup on a present value,
for comparison with `plugin_get_config_bool`: strip leading whitespace;
a case-insensitive match of a canonical truthy word `1/true/yes/on`
yields true, of a canonical falsy word `0/false/no/off` yields false,
and anything else (including the empty remainder) yields the supplied
default. -/
def get_bool_spec (v : List Char) (d : Bool) : Bool :=
  if strcasecmp_eq (skip_leading_spaces v) "1".data ∨
      strcasecmp_eq (skip_leading_spaces v) "true".data ∨
      strcasecmp_eq (skip_leading_spaces v) "yes".data ∨
      strcasecmp_eq (skip_leading_spaces v) "on".data then true
  else if strcasecmp_eq (skip_leading_spaces v) "0".data ∨
      strcasecmp_eq (skip_leading_spaces v) "false".data ∨
      strcasecmp_eq (skip_leading_spaces v) "no".data ∨
      strcasecmp_eq (skip_leading_spaces v) "off".data then false
  else d

/-! ## Row-image null bitmap (C6, `parse_row_to_json_filtered`) -/

/-- `bit_get(bits, idx) = (bits[idx >> 3] >> (idx & 7)) & 1`. -/
def bit_get (bits : List Nat) (idx : Nat) : Nat :=
  (bits.getD (idx >>> 3) 0 >>> (idx &&& 7)) &&& 1

/-- `count_present_columns`: count the set bits of the present-bitmap
over columns `0 .. ncols-1`. -/
def count_present_columns (present : List Nat) (ncols : Nat) : Nat :=
  (List.range ncols).foldl
    (fun count i => if bit_get present i = 1 then count + 1 else count) 0

/-- The null-bitmap length read by `parse_row_to_json_filtered`:
`bmp_len = (present_count + 7) >> 3`, sized by the present count, not by
`ncols`. -/
def row_null_bitmap_len (present : List Nat) (ncols : Nat) : Nat :=
  (count_present_columns present ncols + 7) >>> 3

/-- The null-bit reads performed by the column loop of
`parse_row_to_json_filtered`: for each column `i < ncols`, absent columns
are skipped (`if(!bit_get(present,i)) continue;`) and each present column
consumes one bit, `is_null = bit_get(nullmap, seen++)`.  The model
returns the list of `(column index, null-bit index)` pairs in the order
they are consumed. -/
def row_null_bit_reads (present : List Nat) (ncols : Nat) :
    List (Nat × Nat) :=
  ((List.range ncols).foldl
    (fun (st : List (Nat × Nat) × Nat) i =>
      if bit_get present i = 1 then (st.1 ++ [(i, st.2)], st.2 + 1) else st)
    ([], 0)).1

/-! ## PostgreSQL LSN checkpoint text (C9) and startup clamp (C7) -/

/-- The hexadecimal digit printed by `printf` `%lX` for `0 ≤ d < 16`
(digits then uppercase letters). -/
def hex_digit_char (d : Nat) : Char :=
  if d < 10 then Char.ofNat (48 + d) else Char.ofNat (55 + d)

/-- The digit string printed by `%lX`: most significant first, no
leading zeros, a single `'0'` for zero. -/
def nat_to_hex (n : Nat) : List Char :=
  if _h : n < 16 then [hex_digit_char n]
  else nat_to_hex (n / 16) ++ [hex_digit_char (n % 16)]
decreasing_by exact Nat.div_lt_self (by omega) (by omega)

/-- The checkpoint line written by `save_position`
(pg_stream_modular.c): `fprintf(fp, "%lX/%lX\n", lsn >> 32,
lsn & 0xFFFFFFFF)`. -/
def save_position_line (lsn : Nat) : List Char :=
  nat_to_hex (lsn >>> 32) ++ '/' :: nat_to_hex (lsn &&& 0xFFFFFFFF) ++ ['\n']

/-- Value of a hexadecimal digit character; `scanf` `%lX`/`%lx` accepts
both cases. -/
def hex_val (c : Char) : Option Nat :=
  if '0' ≤ c ∧ c ≤ '9' then some (c.toNat - 48)
  else if 'A' ≤ c ∧ c ≤ 'F' then some (c.toNat - 55)
  else if 'a' ≤ c ∧ c ≤ 'f' then some (c.toNat - 87)
  else none

/-- Greedy hexadecimal scan of a `%lX` conversion: consume hex digits,
accumulating the value, and stop at the first non-digit. -/
def scan_hex (acc : Nat) : List Char → Nat × List Char
  | [] => (acc, [])
  | c :: rest =>
    match hex_val c with
    | some d => scan_hex (16 * acc + d) rest
    | none => (acc, c :: rest)

/-- `restore_position` / `parse_lsn_text` on a checkpoint line: scan
`%lX`, require `'/'`, scan `%lX`, and recombine
`(upper << 32) | lower`.  Each conversion must consume at least one
digit, else `fscanf`/`sscanf` returns short and the function fails
(modelled as `none`).  (The scan of a `0x` prefix and of leading
whitespace, which the produced format never contains, is not
modelled.) -/
def restore_position_parse (s : List Char) : Option Nat :=
  match s with
  | [] => none
  | c :: _ =>
    if (hex_val c).isSome then
      let r1 := scan_hex 0 s
      match r1.2 with
      | '/' :: r2 =>
        match r2 with
        | [] => none
        | c2 :: _ =>
          if (hex_val c2).isSome then
            let r3 := scan_hex 0 r2
            some ((r1.1 <<< 32) ||| r3.1)
          else none
      | _ => none
    else none

/-- The locally determined start LSN in `main` (pg_stream_modular.c):
`start_lsn = g_config.start_lsn;` then the checkpoint file overrides it
when readable; when there is no checkpoint and the configured value is
zero, fall back to `pg_current_wal_lsn()` when that query parses. -/
def local_start_lsn (checkpoint : Option Nat) (cfg_start : Nat)
    (cur_wal : Option Nat) : Nat :=
  match checkpoint with
  | some c => c
  | none =>
    if cfg_start = 0 then
      match cur_wal with
      | some w => w
      | none => cfg_start
    else cfg_start

/-- The clamp in `main`: when `read_slot_confirmed_flush_lsn` succeeds,
`if (start_lsn > slot_lsn) start_lsn = slot_lsn;`. -/
def clamp_start_lsn (start : Nat) (slot : Option Nat) : Nat :=
  match slot with
  | some s => if start > s then s else start
  | none => start

/-! ## Helper lemmas -/

theorem getD_lt_256 (p : List Nat) (hp : ∀ b ∈ p, b < 256) (i : Nat) :
    p.getD i 0 < 256 := by
  rw [List.getD_eq_getElem?_getD]
  cases h : p[i]? with
  | none => simp
  | some b =>
    obtain ⟨hlen, hget⟩ := List.getElem?_eq_some_iff.mp h
    have hb : b ∈ p := hget ▸ List.getElem_mem hlen
    simpa using hp b hb

theorem le16_lt (p : List Nat) (hp : ∀ b ∈ p, b < 256) : le16 p < 2 ^ 16 := by
  have h0 := getD_lt_256 p hp 0
  have h1 := getD_lt_256 p hp 1
  exact Nat.or_lt_two_pow (by omega)
    (Nat.shiftLeft_lt (x := p.getD 1 0) (n := 8) (by omega))

theorem le24_lt (p : List Nat) (hp : ∀ b ∈ p, b < 256) : le24 p < 2 ^ 24 := by
  have h0 := getD_lt_256 p hp 0
  have h1 := getD_lt_256 p hp 1
  have h2 := getD_lt_256 p hp 2
  have ha : p.getD 0 0 ||| (p.getD 1 0) <<< 8 < 2 ^ 16 :=
    Nat.or_lt_two_pow (by omega)
      (Nat.shiftLeft_lt (x := p.getD 1 0) (n := 8) (by omega))
  exact Nat.or_lt_two_pow (by omega)
    (Nat.shiftLeft_lt (x := p.getD 2 0) (n := 8) (by omega))

theorem and_high_bit_iff (v : Nat) (hv : v < 2 ^ 24) :
    v &&& 0x800000 ≠ 0 ↔ 2 ^ 23 ≤ v := by
  have h0x : (0x800000 : Nat) = 2 ^ 23 := by norm_num
  rw [h0x, Nat.and_two_pow, Nat.testBit_to_div_mod]
  rcases Nat.lt_or_ge v (2 ^ 23) with hlt | hge
  · have hd : v / 2 ^ 23 % 2 = 0 := by rw [Nat.div_eq_of_lt hlt]
    rw [hd]
    simp
    norm_num at hlt
    exact hlt
  · have h1 : v / 2 ^ 23 = 1 := by
      have h2 : 1 * 2 ^ 23 ≤ v := by simpa using hge
      have h3 : v < (1 + 1) * 2 ^ 23 := by
        norm_num at hv ⊢
        omega
      exact Nat.div_eq_of_lt_le h2 h3
    have hd : v / 2 ^ 23 % 2 = 1 := by rw [h1]
    rw [hd]
    simp
    exact hge

/-- C1: the claim states that TINY/SHORT/INT24/LONG/LONGLONG columns are
all rendered as signed little-endian integers.  Counterexample: a LONG
column whose four bytes are all `0xFF` is rendered by
`snprintf("%u", le32(p))` as the unsigned value 4294967295, not as the
signed value -1. -/
theorem C1_counterexample :
    (append_column_value_to_json .long [255, 255, 255, 255]).1 ≠
      c_signed_cast 32 (le32 [255, 255, 255, 255]) ∧
    (append_column_value_to_json .long [255, 255, 255, 255]).1 = 4294967295 ∧
    c_signed_cast 32 (le32 [255, 255, 255, 255]) = -1 := by
  refine ⟨?_, ?_, ?_⟩ <;> decide

/-- C1 (amended): TINY/SHORT/INT24 columns are rendered as the signed
little-endian integer of 1/2/3 bytes (INT24 sign-extended from 24 bits);
LONG and LONGLONG columns are rendered as the UNSIGNED little-endian
integer of 4/8 bytes; each type consumes its width in bytes. -/
theorem C1_amended (t : MysqlIntType) (p : List Nat)
    (hp : ∀ b ∈ p, b < 256) :
    (append_column_value_to_json t p).2 = mysql_int_width t ∧
    ((t = .tiny ∨ t = .short ∨ t = .int24) →
      (append_column_value_to_json t p).1 =
        c_signed_cast (8 * mysql_int_width t) (mysql_le_value t p)) ∧
    ((t = .long ∨ t = .longlong) →
      (append_column_value_to_json t p).1 = (mysql_le_value t p : Int)) := by
  cases t with
  | tiny => exact ⟨rfl, fun _ => rfl, by simp⟩
  | short => exact ⟨rfl, fun _ => rfl, by simp⟩
  | int24 =>
    refine ⟨rfl, fun _ => ?_, by simp⟩
    have hlt := le24_lt p hp
    have hiff := and_high_bit_iff (le24 p) hlt
    show (if le24 p &&& 0x800000 ≠ 0 then ((le24 p : Int)) - 2 ^ 24
          else (le24 p : Int)) = c_signed_cast (8 * 3) (le24 p)
    unfold c_signed_cast
    by_cases hbit : le24 p &&& 0x800000 ≠ 0
    · have hge : 2 ^ 23 ≤ le24 p := hiff.mp hbit
      have hc : ¬ le24 p < 2 ^ (8 * 3 - 1) := by
        norm_num at hge ⊢
        omega
      rw [if_pos hbit, if_neg hc]
    · have hlt23 : le24 p < 2 ^ 23 := by
        rcases Nat.lt_or_ge (le24 p) (2 ^ 23) with h | h
        · exact h
        · exact absurd (hiff.mpr h) hbit
      have hc : le24 p < 2 ^ (8 * 3 - 1) := by
        norm_num at hlt23 ⊢
        omega
      rw [if_neg hbit, if_pos hc]
  | long => exact ⟨rfl, by simp, fun _ => rfl⟩
  | longlong => exact ⟨rfl, by simp, fun _ => rfl⟩

/-- C1 amended, witnessed at an INT24 column with its most significant
bit set: the three bytes `80 00 80` decode to the negative value
-8388480. -/
theorem C1_amended_witness :
    (∀ b ∈ [0x80, 0x00, 0x80], b < 256) ∧
    ((append_column_value_to_json .int24 [0x80, 0x00, 0x80]).2 =
        mysql_int_width .int24 ∧
      ((MysqlIntType.int24 = .tiny ∨ MysqlIntType.int24 = .short ∨
          MysqlIntType.int24 = .int24) →
        (append_column_value_to_json .int24 [0x80, 0x00, 0x80]).1 =
          c_signed_cast (8 * mysql_int_width .int24)
            (mysql_le_value .int24 [0x80, 0x00, 0x80])) ∧
      ((MysqlIntType.int24 = .long ∨ MysqlIntType.int24 = .longlong) →
        (append_column_value_to_json .int24 [0x80, 0x00, 0x80]).1 =
          (mysql_le_value .int24 [0x80, 0x00, 0x80] : Int))) :=
  ⟨by decide, C1_amended .int24 [0x80, 0x00, 0x80] (by decide)⟩

/-- The invariant that actually holds of the transaction globals: an
open transaction always has a non-empty id. -/
def txn_open_nonempty (s : MysqlTxnState) : Prop :=
  s.inTx = true → s.txn ≠ ""

theorem parse_event_txn_preserves (e : MysqlEvent) (fresh : String)
    (s : MysqlTxnState) (hfresh : fresh ≠ "") (hs : txn_open_nonempty s) :
    txn_open_nonempty (parse_event_txn e fresh s) := by
  cases e with
  | query k =>
    show txn_open_nonempty (parse_query_txn k fresh s)
    unfold parse_query_txn txn_open_nonempty
    by_cases hck : k = .qCommit ∨ k = .qRollback
    · simp [hck]
    · rw [if_neg hck]
      by_cases hb : k = .qBegin
      · simp [hb, hfresh]
      · rw [if_neg hb]
        by_cases hin : s.inTx = false
        · simp [hin]
        · simp [hin]
          exact hs (by simpa using hin)
  | xid => intro h; simp [parse_event_txn, parse_xid_txn] at h
  | tableMap captured =>
    show txn_open_nonempty (parse_table_map_txn captured fresh s)
    unfold parse_table_map_txn txn_open_nonempty
    by_cases hc : captured = true ∧ s.inTx = false
    · simp [hc, hfresh]
    · simp [hc]
      exact hs
  | rows => exact hs
  | rotate => exact hs
  | formatDesc => exact hs

/-- C2: the claim states that between events the transaction id is empty
iff a transaction is open.  Counterexample: processing a single BEGIN
query from the initial state leaves the transaction open with a
non-empty (freshly generated UUID) id, so the biconditional is false. -/
theorem C2_counterexample :
    ¬ (((run_mysql_events
          [(.query .qBegin, "3b241101-e2bb-4255-8caf-4136c566a962")]).txn = "") ↔
        ((run_mysql_events
          [(.query .qBegin, "3b241101-e2bb-4255-8caf-4136c566a962")]).inTx = true)) := by
  decide

/-- C2 (amended): between events, whenever a transaction is open
(`in_transaction != 0`) the current transaction id is non-empty; the
converse direction fails, because a QUERY event that is neither BEGIN nor
COMMIT/ROLLBACK processed while no transaction is open generates a fresh
id while leaving the transaction closed. -/
theorem C2_amended (evs : List (MysqlEvent × String))
    (hfresh : ∀ pr ∈ evs, pr.2 ≠ "") (u : String) (hu : u ≠ "") :
    ((run_mysql_events evs).inTx = true → (run_mysql_events evs).txn ≠ "") ∧
    ((parse_query_txn .qOther u mysql_txn_init).txn ≠ "" ∧
      (parse_query_txn .qOther u mysql_txn_init).inTx = false) := by
  constructor
  · have hgen : ∀ (l : List (MysqlEvent × String)) (s : MysqlTxnState),
        (∀ pr ∈ l, pr.2 ≠ "") → txn_open_nonempty s →
        txn_open_nonempty (l.foldl (fun s pr => parse_event_txn pr.1 pr.2 s) s) := by
      intro l
      induction l with
      | nil => intro s _ hs; exact hs
      | cons hd tl ih =>
        intro s hl hs
        exact ih (parse_event_txn hd.1 hd.2 s)
          (fun pr hpr => hl pr (List.mem_cons_of_mem hd hpr))
          (parse_event_txn_preserves hd.1 hd.2 s (hl hd (List.mem_cons_self hd tl)) hs)
    exact hgen evs mysql_txn_init hfresh (by intro h; simp [mysql_txn_init] at h)
  · constructor
    · simp [parse_query_txn, mysql_txn_init, hu]
    · simp [parse_query_txn, mysql_txn_init]

/-- C2 amended, witnessed on the concrete sequence BEGIN, row, XID,
plain QUERY with concrete UUID strings. -/
theorem C2_amended_witness :
    ((∀ pr ∈ [((MysqlEvent.query .qBegin), "3b241101-e2bb-4255-8caf-4136c566a962"),
              (MysqlEvent.rows, "3b241101-e2bb-4255-8caf-4136c566a962"),
              (MysqlEvent.xid, "3b241101-e2bb-4255-8caf-4136c566a962")],
        (pr.2 : String) ≠ "") ∧
      ("00000000-0000-0000-0000-000000000000" : String) ≠ "") ∧
    ((run_mysql_events
        [((MysqlEvent.query .qBegin), "3b241101-e2bb-4255-8caf-4136c566a962"),
         (MysqlEvent.rows, "3b241101-e2bb-4255-8caf-4136c566a962"),
         (MysqlEvent.xid, "3b241101-e2bb-4255-8caf-4136c566a962")]).inTx = true →
      (run_mysql_events
        [((MysqlEvent.query .qBegin), "3b241101-e2bb-4255-8caf-4136c566a962"),
         (MysqlEvent.rows, "3b241101-e2bb-4255-8caf-4136c566a962"),
         (MysqlEvent.xid, "3b241101-e2bb-4255-8caf-4136c566a962")]).txn ≠ "") ∧
    ((parse_query_txn .qOther "00000000-0000-0000-0000-000000000000"
        mysql_txn_init).txn ≠ "" ∧
      (parse_query_txn .qOther "00000000-0000-0000-0000-000000000000"
        mysql_txn_init).inTx = false) :=
  ⟨⟨by decide, by decide⟩,
    C2_amended _ (by decide) "00000000-0000-0000-0000-000000000000" (by decide)⟩

theorem mod_shift_inj {cap head i j : Nat} (hi : i < cap) (hj : j < cap)
    (h : (head + i) % cap = (head + j) % cap) : i = j := by
  have h2 : i ≡ j [MOD cap] :=
    Nat.ModEq.add_left_cancel (Nat.ModEq.refl head) h
  have h3 : i % cap = j % cap := h2
  rwa [Nat.mod_eq_of_lt hi, Nat.mod_eq_of_lt hj] at h3

/-- C3: enqueueing into a full ring (q_count = q_capacity) fails with -1,
bumps `events_dropped` by exactly one, and leaves slots, head, tail and
count unchanged; and three enqueues into a fresh capacity-2 queue whose
worker never dequeues leave the first two events queued and drop exactly
the third (`events_dropped = 1`). -/
theorem C3_full_queue_drops {α : Type} (q : PubQueue α) (e : α)
    (hfull : q.q_count = q.q_capacity) :
    (publisher_instance_enqueue true q e).1 = -1 ∧
    (publisher_instance_enqueue true q e).2.events_dropped =
      q.events_dropped + 1 ∧
    (publisher_instance_enqueue true q e).2.slots = q.slots ∧
    (publisher_instance_enqueue true q e).2.q_head = q.q_head ∧
    (publisher_instance_enqueue true q e).2.q_tail = q.q_tail ∧
    (publisher_instance_enqueue true q e).2.q_count = q.q_count ∧
    ((publisher_instance_enqueue true
        (publisher_instance_enqueue true
          (publisher_instance_enqueue true (queue_init Nat 2) 10).2 20).2 30).1
        = -1 ∧
      (publisher_instance_enqueue true
        (publisher_instance_enqueue true
          (publisher_instance_enqueue true (queue_init Nat 2) 10).2 20).2 30).2
        = { slots := [some 10, some 20], q_capacity := 2, q_head := 0,
            q_tail := 0, q_count := 2, events_dropped := 1 }) := by
  have hge : q.q_count ≥ q.q_capacity := Nat.le_of_eq hfull.symm
  refine ⟨?_, ?_, ?_, ?_, ?_, ?_, by decide⟩ <;>
    simp [publisher_instance_enqueue, hge]

/-- C3, witnessed on a concrete full capacity-1 queue. -/
theorem C3_full_queue_drops_witness :
    (({ slots := [some 7], q_capacity := 1, q_head := 0, q_tail := 0, q_count := 1, events_dropped := 5 } : PubQueue Nat).q_count = ({ slots := [some 7], q_capacity := 1, q_head := 0, q_tail := 0, q_count := 1, events_dropped := 5 } : PubQueue Nat).q_capacity) ∧
    ((publisher_instance_enqueue true ({ slots := [some 7], q_capacity := 1, q_head := 0, q_tail := 0, q_count := 1, events_dropped := 5 } : PubQueue Nat) 9).1 = -1 ∧
      (publisher_instance_enqueue true ({ slots := [some 7], q_capacity := 1, q_head := 0, q_tail := 0, q_count := 1, events_dropped := 5 } : PubQueue Nat) 9).2.events_dropped = ({ slots := [some 7], q_capacity := 1, q_head := 0, q_tail := 0, q_count := 1, events_dropped := 5 } : PubQueue Nat).events_dropped + 1 ∧
      (publisher_instance_enqueue true ({ slots := [some 7], q_capacity := 1, q_head := 0, q_tail := 0, q_count := 1, events_dropped := 5 } : PubQueue Nat) 9).2.slots = ({ slots := [some 7], q_capacity := 1, q_head := 0, q_tail := 0, q_count := 1, events_dropped := 5 } : PubQueue Nat).slots ∧
      (publisher_instance_enqueue true ({ slots := [some 7], q_capacity := 1, q_head := 0, q_tail := 0, q_count := 1, events_dropped := 5 } : PubQueue Nat) 9).2.q_head = ({ slots := [some 7], q_capacity := 1, q_head := 0, q_tail := 0, q_count := 1, events_dropped := 5 } : PubQueue Nat).q_head ∧
      (publisher_instance_enqueue true ({ slots := [some 7], q_capacity := 1, q_head := 0, q_tail := 0, q_count := 1, events_dropped := 5 } : PubQueue Nat) 9).2.q_tail = ({ slots := [some 7], q_capacity := 1, q_head := 0, q_tail := 0, q_count := 1, events_dropped := 5 } : PubQueue Nat).q_tail ∧
      (publisher_instance_enqueue true ({ slots := [some 7], q_capacity := 1, q_head := 0, q_tail := 0, q_count := 1, events_dropped := 5 } : PubQueue Nat) 9).2.q_count = ({ slots := [some 7], q_capacity := 1, q_head := 0, q_tail := 0, q_count := 1, events_dropped := 5 } : PubQueue Nat).q_count ∧
      ((publisher_instance_enqueue true
          (publisher_instance_enqueue true
            (publisher_instance_enqueue true (queue_init Nat 2) 10).2 20).2 30).1
          = -1 ∧
        (publisher_instance_enqueue true
          (publisher_instance_enqueue true
            (publisher_instance_enqueue true (queue_init Nat 2) 10).2 20).2 30).2
          = { slots := [some 10, some 20], q_capacity := 2, q_head := 0, q_tail := 0, q_count := 2, events_dropped := 1 })) :=
  ⟨rfl, C3_full_queue_drops ({ slots := [some 7], q_capacity := 1, q_head := 0, q_tail := 0, q_count := 1, events_dropped := 5 } : PubQueue Nat) 9 rfl⟩

theorem getD_set_ne {α : Type} (l : List (Option α)) (t i : Nat)
    (x : Option α) (h : t ≠ i) :
    (l.set t x).getD i none = l.getD i none := by
  simp [List.getD_eq_getElem?_getD, List.getElem?_set_ne h]

theorem getD_set_self {α : Type} (l : List (Option α)) (t : Nat)
    (x : Option α) (h : t < l.length) :
    (l.set t x).getD t none = x := by
  simp [List.getD_eq_getElem?_getD, List.getElem?_set_self h]

theorem enqueue_eq {α : Type} (q : PubQueue α) (e : α) :
    publisher_instance_enqueue true q e =
      if q.q_count ≥ q.q_capacity then
        (-1, { q with events_dropped := q.events_dropped + 1 })
      else
        (0, { q with
              slots := q.slots.set q.q_tail (some e)
              q_tail := (q.q_tail + 1) % q.q_capacity
              q_count := q.q_count + 1 }) := rfl

theorem ring_inv_init {α : Type} (cap : Nat) : ring_inv (queue_init α cap) := by
  have base : ∀ c : Nat, 0 < c →
      ring_inv ({ slots := List.replicate c none, q_capacity := c, q_head := 0, q_tail := 0, q_count := 0, events_dropped := 0 } : PubQueue α) := by
    intro c hc
    exact ⟨by simp, hc, Nat.zero_le c, hc, by simp, fun i hi => absurd hi (Nat.not_lt_zero i)⟩
  have hrepr : queue_init α cap =
      { slots := List.replicate (if cap > 0 then cap else PUBLISHER_QUEUE_CAPACITY) none, q_capacity := (if cap > 0 then cap else PUBLISHER_QUEUE_CAPACITY), q_head := 0, q_tail := 0, q_count := 0, events_dropped := 0 } := rfl
  rw [hrepr]
  apply base
  by_cases h : cap > 0
  · simp [h]
  · rw [if_neg h]
    unfold PUBLISHER_QUEUE_CAPACITY
    omega

theorem ring_inv_enqueue {α : Type} (q : PubQueue α) (e : α)
    (hq : ring_inv q) : ring_inv (publisher_instance_enqueue true q e).2 := by
  obtain ⟨hlen, hcap, hcnt, hhead, htail, hslots⟩ := hq
  rw [enqueue_eq]
  by_cases hfull : q.q_count ≥ q.q_capacity
  · rw [if_pos hfull]
    exact ⟨hlen, hcap, hcnt, hhead, htail, hslots⟩
  · rw [if_neg hfull]
    have hlt : q.q_count < q.q_capacity := Nat.lt_of_not_le hfull
    refine ⟨by simp [hlen], hcap, by show q.q_count + 1 ≤ q.q_capacity; omega,
      hhead, ?_, ?_⟩
    · show (q.q_tail + 1) % q.q_capacity =
        (q.q_head + (q.q_count + 1)) % q.q_capacity
      rw [htail, Nat.mod_add_mod, Nat.add_assoc]
    · intro i hi
      have hi' : i < q.q_count + 1 := hi
      show ((q.slots.set q.q_tail (some e)).getD
        ((q.q_head + i) % q.q_capacity) none).isSome = true
      rcases Nat.lt_or_ge i q.q_count with hic | hic
      · have hne : q.q_tail ≠ (q.q_head + i) % q.q_capacity := by
          intro heq
          have heq2 : (q.q_head + q.q_count) % q.q_capacity =
              (q.q_head + i) % q.q_capacity := by
            rw [← htail]
            exact heq
          have := mod_shift_inj hlt (Nat.lt_trans hic hlt) heq2
          omega
        rw [getD_set_ne _ _ _ _ hne]
        exact hslots i hic
      · have hieq : i = q.q_count := by omega
        subst hieq
        have htl : q.q_tail < q.slots.length := by
          rw [hlen, htail]
          exact Nat.mod_lt _ hcap
        rw [← htail, getD_set_self _ _ _ htl]
        rfl

theorem ring_inv_dequeue {α : Type} (q : PubQueue α)
    (hq : ring_inv q) (hpos : 0 < q.q_count) :
    ring_inv (publisher_worker_dequeue q).2 := by
  obtain ⟨hlen, hcap, hcnt, hhead, htail, hslots⟩ := hq
  refine ⟨by show (q.slots.set q.q_head none).length = q.q_capacity; simp [hlen],
    hcap, by show q.q_count - 1 ≤ q.q_capacity; omega,
    by show (q.q_head + 1) % q.q_capacity < q.q_capacity; exact Nat.mod_lt _ hcap,
    ?_, ?_⟩
  · show q.q_tail = ((q.q_head + 1) % q.q_capacity + (q.q_count - 1)) % q.q_capacity
    rw [Nat.mod_add_mod, htail]
    congr 1
    omega
  · intro i hi
    have hi' : i < q.q_count - 1 := hi
    show ((q.slots.set q.q_head none).getD
      (((q.q_head + 1) % q.q_capacity + i) % q.q_capacity) none).isSome = true
    have hidx : ((q.q_head + 1) % q.q_capacity + i) % q.q_capacity =
        (q.q_head + (1 + i)) % q.q_capacity := by
      rw [Nat.mod_add_mod, Nat.add_assoc]
    rw [hidx]
    have h1i : 1 + i < q.q_count := by omega
    have hne : q.q_head ≠ (q.q_head + (1 + i)) % q.q_capacity := by
      intro heq
      have heq0 : (q.q_head + 0) % q.q_capacity =
          (q.q_head + (1 + i)) % q.q_capacity := by
        rw [Nat.add_zero, Nat.mod_eq_of_lt hhead]
        exact heq
      have := mod_shift_inj (i := 0) (j := 1 + i) hcap
        (by omega) heq0
      omega
    rw [getD_set_ne _ _ _ _ hne]
    exact hslots (1 + i) h1i

/-- C10: `queue_init` establishes the ring invariant (count bounded by
capacity, `q_tail = (q_head + q_count) % q_capacity`, the `q_count`
slots starting at `q_head` all pending); both outcomes of
`publisher_instance_enqueue` preserve it; a failed enqueue leaves slots,
head, tail and count unchanged; and the worker's dequeue preserves it
whenever the queue is non-empty. -/
theorem C10_ring_invariant {α : Type} (cap : Nat) (q : PubQueue α) (e : α)
    (hq : ring_inv q) :
    ring_inv (queue_init α cap) ∧
    ring_inv (publisher_instance_enqueue true q e).2 ∧
    ((publisher_instance_enqueue true q e).1 = -1 →
      (publisher_instance_enqueue true q e).2.slots = q.slots ∧
      (publisher_instance_enqueue true q e).2.q_head = q.q_head ∧
      (publisher_instance_enqueue true q e).2.q_tail = q.q_tail ∧
      (publisher_instance_enqueue true q e).2.q_count = q.q_count) ∧
    (0 < q.q_count → ring_inv (publisher_worker_dequeue q).2) := by
  refine ⟨ring_inv_init cap, ring_inv_enqueue q e hq, ?_, fun h => ring_inv_dequeue q hq h⟩
  intro hfail
  unfold publisher_instance_enqueue at hfail ⊢
  by_cases hfull : q.q_count ≥ q.q_capacity
  · simp [hfull]
  · simp only [hfull] at hfail
    norm_num at hfail

/-- C10, witnessed on a concrete capacity-2 queue holding one pending
event. -/
theorem C10_ring_invariant_witness :
    ring_inv ({ slots := [some 3, none], q_capacity := 2, q_head := 0, q_tail := 1, q_count := 1, events_dropped := 0 } : PubQueue Nat) ∧
    (ring_inv (queue_init Nat 4) ∧
      ring_inv (publisher_instance_enqueue true ({ slots := [some 3, none], q_capacity := 2, q_head := 0, q_tail := 1, q_count := 1, events_dropped := 0 } : PubQueue Nat) 8).2 ∧
      ((publisher_instance_enqueue true ({ slots := [some 3, none], q_capacity := 2, q_head := 0, q_tail := 1, q_count := 1, events_dropped := 0 } : PubQueue Nat) 8).1 = -1 →
        (publisher_instance_enqueue true ({ slots := [some 3, none], q_capacity := 2, q_head := 0, q_tail := 1, q_count := 1, events_dropped := 0 } : PubQueue Nat) 8).2.slots = ({ slots := [some 3, none], q_capacity := 2, q_head := 0, q_tail := 1, q_count := 1, events_dropped := 0 } : PubQueue Nat).slots ∧
        (publisher_instance_enqueue true ({ slots := [some 3, none], q_capacity := 2, q_head := 0, q_tail := 1, q_count := 1, events_dropped := 0 } : PubQueue Nat) 8).2.q_head = ({ slots := [some 3, none], q_capacity := 2, q_head := 0, q_tail := 1, q_count := 1, events_dropped := 0 } : PubQueue Nat).q_head ∧
        (publisher_instance_enqueue true ({ slots := [some 3, none], q_capacity := 2, q_head := 0, q_tail := 1, q_count := 1, events_dropped := 0 } : PubQueue Nat) 8).2.q_tail = ({ slots := [some 3, none], q_capacity := 2, q_head := 0, q_tail := 1, q_count := 1, events_dropped := 0 } : PubQueue Nat).q_tail ∧
        (publisher_instance_enqueue true ({ slots := [some 3, none], q_capacity := 2, q_head := 0, q_tail := 1, q_count := 1, events_dropped := 0 } : PubQueue Nat) 8).2.q_count = ({ slots := [some 3, none], q_capacity := 2, q_head := 0, q_tail := 1, q_count := 1, events_dropped := 0 } : PubQueue Nat).q_count) ∧
      (0 < ({ slots := [some 3, none], q_capacity := 2, q_head := 0, q_tail := 1, q_count := 1, events_dropped := 0 } : PubQueue Nat).q_count →
        ring_inv (publisher_worker_dequeue ({ slots := [some 3, none], q_capacity := 2, q_head := 0, q_tail := 1, q_count := 1, events_dropped := 0 } : PubQueue Nat)).2)) := by
  have hinv : ring_inv ({ slots := [some 3, none], q_capacity := 2, q_head := 0, q_tail := 1, q_count := 1, events_dropped := 0 } : PubQueue Nat) := by
    refine ⟨rfl, by norm_num, by norm_num, by norm_num, by norm_num, ?_⟩
    intro i hi
    interval_cases i
    · decide
  exact ⟨hinv, C10_ring_invariant 4
    ({ slots := [some 3, none], q_capacity := 2, q_head := 0, q_tail := 1, q_count := 1, events_dropped := 0 } : PubQueue Nat) 8 hinv⟩

/-- Loading a sequence of (active) publisher configurations in order, as
the startup loop does, one `publisher_manager_load_plugin` per configured
publisher, starting from an empty manager. -/
def load_all (loads : List (String × List String)) : List PublisherInstanceM :=
  loads.foldl (fun acc pr => publisher_manager_load_plugin acc pr.1 true pr.2) []

theorem load_all_names (loads : List (String × List String)) :
    ∀ acc : List PublisherInstanceM,
      (loads.foldl
        (fun acc pr => publisher_manager_load_plugin acc pr.1 true pr.2) acc).map
          PublisherInstanceM.name =
        (loads.map Prod.fst).reverse ++ acc.map PublisherInstanceM.name := by
  induction loads with
  | nil => intro acc; simp
  | cons hd tl ih =>
    intro acc
    simp only [List.foldl_cons, List.map_cons, List.reverse_cons]
    rw [ih]
    simp [publisher_manager_load_plugin]

/-- C4: the claim states that `publish_event` offers each event to the
sinks in registration order (first loaded offered first).
Counterexample: loading sink A then sink B makes `publish_event` offer
events to B first, because `publisher_manager_load_plugin` prepends to
`manager->instances`. -/
theorem C4_counterexample :
    (publish_event_offers
      (publisher_manager_load_plugin
        (publisher_manager_load_plugin [] "A" true []) "B" true []) "shop").map
        Prod.fst = ["B", "A"] ∧
    (["B", "A"] : List String) ≠ ["A", "B"] := by
  constructor
  · rfl
  · decide

/-- C4 (amended): `publish_event` visits the loaded sinks in REVERSE
registration order (the sink loaded last is offered each event first),
and this visit order is stable: it is the same for every event. -/
theorem C4_amended (loads : List (String × List String)) (db db' : String) :
    (publish_event_offers (load_all loads) db).map Prod.fst =
      (loads.map Prod.fst).reverse ∧
    (publish_event_offers (load_all loads) db).map Prod.fst =
      (publish_event_offers (load_all loads) db').map Prod.fst := by
  have horder : ∀ d : String,
      (publish_event_offers (load_all loads) d).map Prod.fst =
        (loads.map Prod.fst).reverse := by
    intro d
    unfold publish_event_offers load_all
    rw [List.map_map]
    have : (fun inst => ((inst.name, publisher_should_publish inst d)))
        ∘ (id : PublisherInstanceM → PublisherInstanceM) = fun inst =>
          (inst.name, publisher_should_publish inst d) := rfl
    have hmap : ((loads.foldl
        (fun acc pr => publisher_manager_load_plugin acc pr.1 true pr.2)
        []).map (Prod.fst ∘ fun inst =>
          (inst.name, publisher_should_publish inst d))) =
        ((loads.foldl
          (fun acc pr => publisher_manager_load_plugin acc pr.1 true pr.2)
          []).map PublisherInstanceM.name) := by
      apply List.map_congr_left
      intro inst _
      rfl
    rw [hmap, load_all_names loads []]
    simp
  exact ⟨horder db, (horder db).trans (horder db').symm⟩

/-- C5: the claim states that with `save_position_event_count == 0` a
checkpoint is persisted after every row/commit event and after no other
kind of event.  Counterexample: the MySQL `parse_event` epilogue runs the
policy after EVERY event, so a QUERY event (neither a row event nor a
commit boundary) also persists a checkpoint; and on the PostgreSQL side a
row message alone persists nothing (only COMMIT does). -/
theorem C5_counterexample :
    (mysql_parse_event_checkpoint true 0 .query 0).1 = true ∧
    mysql_event_is_row_or_commit .query = false ∧
    (pg_row_message_checkpoint 0).1 = false := by
  refine ⟨rfl, rfl, rfl⟩

/-- C5 (amended): with `save_last_position` enabled, the MySQL decoder
persists a checkpoint after an event iff the event is a ROTATE, or
`save_position_event_count` is 0, or the incremented
`events_since_save` counter reaches `save_position_event_count` —
regardless of the event's kind; the PostgreSQL decoder persists only at
COMMIT messages: row messages merely increment the counter, and a COMMIT
persists iff the count knob is 0 or `events_since_save` has reached it. -/
theorem C5_amended (sl : Bool) (cnt es : Nat) (t : MysqlEventKind) :
    ((mysql_parse_event_checkpoint sl cnt t es).1 = true ↔
      (sl = true ∧ (t = .rotate ∨ cnt = 0 ∨ es + 1 ≥ cnt))) ∧
    pg_row_message_checkpoint es = (false, es + 1) ∧
    ((pg_commit_message_checkpoint sl cnt es).1 = true ↔
      (sl = true ∧ (cnt = 0 ∨ es ≥ cnt))) := by
  refine ⟨?_, rfl, ?_⟩
  · unfold mysql_parse_event_checkpoint
    cases sl with
    | false =>
      simp only [Bool.false_eq_true, if_false]
      constructor
      · intro h
        simp at h
      · intro h
        exact absurd h.1 (by simp)
    | true =>
      simp only [if_true]
      by_cases hrot : t = MysqlEventKind.rotate
      · subst hrot
        by_cases hcnt : cnt > 0
        · simp only [if_pos hcnt]
          by_cases hth : 0 + 1 ≥ cnt
          · simp [hth]
          · simp [hth]
        · simp only [if_neg hcnt]
          simp
      · by_cases hcnt : cnt > 0
        · have hrs : ¬ (t = MysqlEventKind.rotate ∧ true = true) := by
            intro h
            exact hrot h.1
          simp only [if_pos hcnt, hrs, if_false]
          by_cases hth : es + 1 ≥ cnt
          · simp [hth, hrot]
          · simp [hth, hrot]
            omega
        · have hcz : cnt = 0 := by omega
          simp [hcz, hrot]
  · unfold pg_commit_message_checkpoint
    cases sl with
    | false =>
      simp
    | true =>
      by_cases hcnt : cnt > 0
      · simp only [if_true, if_pos hcnt]
        by_cases hth : es ≥ cnt
        · simp [hth]
        · simp [hth]
          omega
      · have hcz : cnt = 0 := by omega
        simp [hcz]

theorem count_present_eq_filter_length (present : List Nat) (ncols : Nat) :
    count_present_columns present ncols =
      ((List.range ncols).filter (fun i => bit_get present i = 1)).length := by
  unfold count_present_columns
  suffices h : ∀ (l : List Nat) (c0 : Nat),
      l.foldl (fun count i => if bit_get present i = 1 then count + 1 else count) c0 =
        c0 + (l.filter (fun i => bit_get present i = 1)).length by
    simpa using h (List.range ncols) 0
  intro l
  induction l with
  | nil => intro c0; simp
  | cons hd tl ih =>
    intro c0
    by_cases h : bit_get present hd = 1 <;> simp [h, ih] <;> try omega

theorem row_null_reads_aux (present : List Nat) (l : List Nat) :
    ∀ (acc : List (Nat × Nat)) (seen : Nat),
      (l.foldl (fun (st : List (Nat × Nat) × Nat) i =>
        if bit_get present i = 1 then (st.1 ++ [(i, st.2)], st.2 + 1) else st)
        (acc, seen)).1 =
        acc ++ (l.filter (fun i => bit_get present i = 1)).zip
          (List.range' seen (l.filter (fun i => bit_get present i = 1)).length) := by
  induction l with
  | nil => intro acc seen; simp
  | cons hd tl ih =>
    intro acc seen
    by_cases h : bit_get present hd = 1
    · rw [List.foldl_cons, if_pos h]
      have hred : (((acc, seen) : List (Nat × Nat) × Nat).1 ++ [(hd, ((acc, seen) : List (Nat × Nat) × Nat).2)], ((acc, seen) : List (Nat × Nat) × Nat).2 + 1) =
          ((acc ++ [(hd, seen)], seen + 1) : List (Nat × Nat) × Nat) := rfl
      rw [hred, ih (acc ++ [(hd, seen)]) (seen + 1)]
      rw [List.filter_cons_of_pos (by simp [h])]
      rw [List.length_cons, List.range'_succ, List.zip_cons_cons]
      simp
    · rw [List.foldl_cons, if_neg h]
      rw [ih acc seen]
      rw [List.filter_cons_of_neg (by simp [h])]

/-- C6: the row decoder sizes the null-bitmap by the number of present
columns, `bmp_len = (present_count + 7) >> 3 = ceil(k/8)` (characterized
by `k ≤ 8*bmp_len < k+8`), and the column loop consumes exactly one
null-bit per present column in ascending column order: the j-th present
column reads null-bit j. -/
theorem C6_null_bitmap (present : List Nat) (ncols : Nat) :
    row_null_bitmap_len present ncols =
      (count_present_columns present ncols + 7) / 8 ∧
    count_present_columns present ncols ≤
      8 * row_null_bitmap_len present ncols ∧
    8 * row_null_bitmap_len present ncols <
      count_present_columns present ncols + 8 ∧
    row_null_bit_reads present ncols =
      ((List.range ncols).filter (fun i => bit_get present i = 1)).zip
        (List.range (count_present_columns present ncols)) := by
  have hdiv : row_null_bitmap_len present ncols =
      (count_present_columns present ncols + 7) / 8 := by
    unfold row_null_bitmap_len
    rw [Nat.shiftRight_eq_div_pow]
  refine ⟨hdiv, by rw [hdiv]; omega, by rw [hdiv]; omega, ?_⟩
  unfold row_null_bit_reads
  rw [row_null_reads_aux present (List.range ncols) [] 0]
  rw [count_present_eq_filter_length]
  simp [List.range_eq_range']

/-- C7: whenever the slot's `confirmed_flush_lsn` could be read, the
locally determined start LSN (checkpoint file, configured `start_lsn`, or
current WAL LSN) is clamped down to it when greater, so the final start
LSN is the minimum of the two and never exceeds the slot value. -/
theorem C7_start_lsn_clamped (checkpoint : Option Nat) (cfg_start : Nat)
    (cur_wal : Option Nat) (s : Nat) :
    clamp_start_lsn (local_start_lsn checkpoint cfg_start cur_wal) (some s) =
      min (local_start_lsn checkpoint cfg_start cur_wal) s ∧
    clamp_start_lsn (local_start_lsn checkpoint cfg_start cur_wal) (some s)
      ≤ s := by
  have hred : clamp_start_lsn (local_start_lsn checkpoint cfg_start cur_wal) (some s) =
      if local_start_lsn checkpoint cfg_start cur_wal > s then s
      else local_start_lsn checkpoint cfg_start cur_wal := rfl
  rw [hred]
  constructor
  · split <;> omega
  · split <;> omega

theorem hex_val_digit (d : Nat) (h : d < 16) :
    hex_val (hex_digit_char d) = some d := by
  interval_cases d <;> decide

theorem scan_hex_cons_digit (acc : Nat) (c : Char) (d : Nat)
    (rest : List Char) (h : hex_val c = some d) :
    scan_hex acc (c :: rest) = scan_hex (16 * acc + d) rest := by
  show (match hex_val c with
        | some d => scan_hex (16 * acc + d) rest
        | none => (acc, c :: rest)) = _
  rw [h]

theorem scan_hex_cons_stop (acc : Nat) (c : Char) (rest : List Char)
    (h : hex_val c = none) :
    scan_hex acc (c :: rest) = (acc, c :: rest) := by
  show (match hex_val c with
        | some d => scan_hex (16 * acc + d) rest
        | none => (acc, c :: rest)) = _
  rw [h]

theorem nat_to_hex_cons (n : Nat) :
    ∃ c cs, nat_to_hex n = c :: cs ∧ (hex_val c).isSome = true := by
  induction n using Nat.strong_induction_on with
  | _ n ih =>
    by_cases h : n < 16
    · refine ⟨hex_digit_char n, [], ?_, ?_⟩
      · unfold nat_to_hex
        simp [h]
      · rw [hex_val_digit n h]
        rfl
    · obtain ⟨c, cs, hcons, hsome⟩ :=
        ih (n / 16) (Nat.div_lt_self (by omega) (by omega))
      refine ⟨c, cs ++ [hex_digit_char (n % 16)], ?_, hsome⟩
      conv_lhs => rw [nat_to_hex]
      simp [h, hcons]

theorem scan_hex_nat_to_hex (n : Nat) :
    ∀ (acc : Nat) (rest : List Char),
      scan_hex acc (nat_to_hex n ++ rest) =
        scan_hex (acc * 16 ^ (nat_to_hex n).length + n) rest := by
  induction n using Nat.strong_induction_on with
  | _ n ih =>
    intro acc rest
    by_cases h : n < 16
    · have hx : nat_to_hex n = [hex_digit_char n] := by
        unfold nat_to_hex
        simp [h]
      rw [hx, List.singleton_append,
        scan_hex_cons_digit acc (hex_digit_char n) n rest (hex_val_digit n h)]
      have harith : 16 * acc + n = acc * 16 ^ ([hex_digit_char n] : List Char).length + n := by
        simp
        ring
      rw [harith]
    · have hx : nat_to_hex n = nat_to_hex (n / 16) ++ [hex_digit_char (n % 16)] := by
        conv_lhs => rw [nat_to_hex]
        simp [h]
      rw [hx, List.append_assoc,
        ih (n / 16) (Nat.div_lt_self (by omega) (by omega)) acc
          ([hex_digit_char (n % 16)] ++ rest),
        List.singleton_append,
        scan_hex_cons_digit _ (hex_digit_char (n % 16)) (n % 16) rest
          (hex_val_digit (n % 16) (Nat.mod_lt _ (by omega)))]
      have hdm := Nat.div_add_mod n 16
      have harith : 16 * (acc * 16 ^ (nat_to_hex (n / 16)).length + n / 16) + n % 16 =
          acc * 16 ^ ((nat_to_hex (n / 16) ++ [hex_digit_char (n % 16)]).length) + n := by
        have hlen : (nat_to_hex (n / 16) ++ [hex_digit_char (n % 16)]).length =
            (nat_to_hex (n / 16)).length + 1 := by
          simp
        rw [hlen]
        calc 16 * (acc * 16 ^ (nat_to_hex (n / 16)).length + n / 16) + n % 16
            = acc * (16 ^ (nat_to_hex (n / 16)).length * 16) +
              (16 * (n / 16) + n % 16) := by ring
          _ = acc * 16 ^ ((nat_to_hex (n / 16)).length + 1) + n := by
              rw [hdm, pow_succ]
      rw [harith]

theorem restore_position_parse_cons (c : Char) (t : List Char) :
    restore_position_parse (c :: t) =
      (if (hex_val c).isSome then
        match (scan_hex 0 (c :: t)).2 with
        | '/' :: r2 =>
          (match r2 with
          | [] => none
          | c2 :: _ =>
            if (hex_val c2).isSome then
              some (((scan_hex 0 (c :: t)).1 <<< 32) ||| (scan_hex 0 r2).1)
            else none)
        | _ => none
      else none) := rfl

theorem restore_parse_format (hi lo : Nat) :
    restore_position_parse (nat_to_hex hi ++ '/' :: nat_to_hex lo ++ ['\x0a']) =
      some ((hi <<< 32) ||| lo) := by
  obtain ⟨c, cs, hcons, hsome⟩ := nat_to_hex_cons hi
  obtain ⟨c2, cs2, hcons2, hsome2⟩ := nat_to_hex_cons lo
  have hin2 : nat_to_hex lo ++ ['\x0a'] = c2 :: (cs2 ++ ['\x0a']) := by
    rw [hcons2]
    rfl
  have hin : nat_to_hex hi ++ '/' :: nat_to_hex lo ++ ['\x0a'] =
      c :: (cs ++ ('/' :: (c2 :: (cs2 ++ ['\x0a'])))) := by
    rw [hcons, hcons2]
    simp
  have hscan2 : scan_hex 0 (c2 :: (cs2 ++ ['\x0a'])) = (lo, ['\x0a']) := by
    rw [← hin2, scan_hex_nat_to_hex lo 0 ['\x0a']]
    have h0 : (0 : Nat) * 16 ^ (nat_to_hex lo).length + lo = lo := by ring
    rw [h0]
    obtain ⟨cn, csn, hconsn, _⟩ := nat_to_hex_cons lo
    exact scan_hex_cons_stop lo '\x0a' [] (by decide)
  have hscan1 : scan_hex 0 (c :: (cs ++ ('/' :: (c2 :: (cs2 ++ ['\x0a']))))) =
      (hi, '/' :: (c2 :: (cs2 ++ ['\x0a']))) := by
    have hbig : c :: (cs ++ ('/' :: (c2 :: (cs2 ++ ['\x0a'])))) =
        nat_to_hex hi ++ ('/' :: (c2 :: (cs2 ++ ['\x0a']))) := by
      rw [hcons]
      rfl
    rw [hbig, scan_hex_nat_to_hex hi 0 ('/' :: (c2 :: (cs2 ++ ['\x0a'])))]
    have h0 : (0 : Nat) * 16 ^ (nat_to_hex hi).length + hi = hi := by ring
    rw [h0]
    exact scan_hex_cons_stop hi '/' (c2 :: (cs2 ++ ['\x0a'])) (by decide)
  rw [hin, restore_position_parse_cons, hsome, if_pos rfl, hscan1]
  show (match ('/' :: (c2 :: (cs2 ++ ['\x0a']))) with
    | '/' :: r2 =>
      (match r2 with
      | [] => none
      | c3 :: _ =>
        if (hex_val c3).isSome then
          some ((hi <<< 32) ||| (scan_hex 0 r2).1)
        else none)
    | _ => none) = some ((hi <<< 32) ||| lo)
  show (if (hex_val c2).isSome then
      some ((hi <<< 32) ||| (scan_hex 0 (c2 :: (cs2 ++ ['\x0a']))).1)
    else none) = some ((hi <<< 32) ||| lo)
  rw [hsome2, if_pos rfl, hscan2]

/-- C9: the PostgreSQL checkpoint encode/decode pair round-trips: for
every 64-bit LSN, writing the `%lX/%lX` line of `save_position` and
reading it back with the `%lX/%lX` scan of `restore_position` /
`parse_lsn_text` recombines `(upper << 32) | lower` to exactly the
original LSN. -/
theorem C9_lsn_roundtrip (lsn : Nat) (_hdom : lsn < 2 ^ 64) :
    restore_position_parse (save_position_line lsn) = some lsn := by
  unfold save_position_line
  rw [restore_parse_format]
  congr 1
  have hmask : lsn &&& 0xFFFFFFFF = lsn % 2 ^ 32 := by
    have h32 : (0xFFFFFFFF : Nat) = 2 ^ 32 - 1 := by norm_num
    rw [h32, Nat.and_pow_two_sub_one_eq_mod]
  rw [hmask]
  apply Nat.eq_of_testBit_eq
  intro i
  simp only [Nat.testBit_or, Nat.testBit_shiftLeft, Nat.testBit_shiftRight,
    Nat.testBit_mod_two_pow]
  by_cases hi32 : 32 ≤ i
  · have h1 : ¬ i < 32 := by omega
    simp [hi32, h1, Nat.add_sub_cancel' hi32]
  · have h1 : i < 32 := by omega
    simp [hi32, h1]

/-- C9, witnessed at the LSN 0x16/0x2A. -/
theorem C9_lsn_roundtrip_witness :
    (0x160000002A : Nat) < 2 ^ 64 ∧
    restore_position_parse (save_position_line 0x160000002A) =
      some 0x160000002A :=
  ⟨by norm_num, C9_lsn_roundtrip 0x160000002A (by norm_num)⟩

theorem skip_leading_spaces_append (ws w : List Char)
    (hws : ∀ c ∈ ws, config_space c = true) :
    skip_leading_spaces (ws ++ w) = skip_leading_spaces w := by
  induction ws with
  | nil => simp
  | cons hd tl ih =>
    simp only [List.cons_append, skip_leading_spaces]
    rw [if_pos (hws hd (List.mem_cons_self hd tl))]
    exact ih (fun c hc => hws c (List.mem_cons_of_mem hd hc))

/-- C8: the claim states the result is insensitive to both leading and
trailing whitespace around the canonical word.  Counterexample: the code
only skips LEADING whitespace and then compares the whole remainder, so
`"true "` (trailing space) falls back to the supplied default `false`
while `"true"` and `" true"` both yield `true`. -/
theorem C8_counterexample :
    plugin_get_config_bool (some "true") false = true ∧
    plugin_get_config_bool (some " true") false = true ∧
    plugin_get_config_bool (some "true ") false = false := by
  refine ⟨?_, ?_, ?_⟩ <;> decide

/-- C8 (amended): a missing key returns the default; the result is
insensitive to LEADING whitespace only; after stripping leading
whitespace the canonical words 1/true/yes/on (case-insensitive) yield
true, 0/false/no/off yield false, and the empty string or any other
value yields the default. -/
theorem char_toNat_ofNat (n : Nat) (h : n.isValidChar) :
    (Char.ofNat n).toNat = n := by
  unfold Char.ofNat
  rw [dif_pos h]
  rfl

theorem char_toNat_le_of_le {a b : Char} (h : a ≤ b) : a.toNat ≤ b.toNat := h

theorem c_tolower_eq_digit_iff (c x : Char) (hx : x.toNat < 65) :
    c_tolower c = x ↔ c = x := by
  unfold c_tolower
  by_cases h : 'A' ≤ c ∧ c ≤ 'Z'
  · rw [if_pos h]
    have hc1 : ('A' : Char).toNat ≤ c.toNat := char_toNat_le_of_le h.1
    have hc2 : c.toNat ≤ ('Z' : Char).toNat := char_toNat_le_of_le h.2
    have hA : ('A' : Char).toNat = 65 := rfl
    have hZ : ('Z' : Char).toNat = 90 := rfl
    have hvalid : (c.toNat + 32).isValidChar := Or.inl (by omega)
    have htn : (Char.ofNat (c.toNat + 32)).toNat = c.toNat + 32 :=
      char_toNat_ofNat _ hvalid
    constructor
    · intro heq
      exfalso
      have := congrArg Char.toNat heq
      rw [htn] at this
      omega
    · intro heq
      exfalso
      subst heq
      omega
  · rw [if_neg h]

theorem map_tolower_eq_digit (s : List Char) (x : Char) (hx : x.toNat < 65) :
    s.map c_tolower = [x] ↔ s = [x] := by
  constructor
  · intro h
    cases s with
    | nil => simp at h
    | cons c rest =>
      cases rest with
      | nil =>
        simp only [List.map_cons, List.map_nil, List.cons.injEq,
          and_true] at h
        rw [(c_tolower_eq_digit_iff c x hx).mp h]
      | cons c2 rest2 => simp at h
  · intro h
    subst h
    simp only [List.map_cons, List.map_nil, List.cons.injEq, and_true]
    exact (c_tolower_eq_digit_iff x x hx).mpr rfl

theorem strcasecmp_one_iff (s : List Char) :
    strcasecmp_eq s "1".data = true ↔ s = "1".data := by
  unfold strcasecmp_eq
  rw [decide_eq_true_iff]
  have hmap : ("1".data : List Char).map c_tolower = "1".data := by decide
  rw [hmap]
  exact map_tolower_eq_digit s '1' (by decide)

theorem strcasecmp_zero_iff (s : List Char) :
    strcasecmp_eq s "0".data = true ↔ s = "0".data := by
  unfold strcasecmp_eq
  rw [decide_eq_true_iff]
  have hmap : ("0".data : List Char).map c_tolower = "0".data := by decide
  rw [hmap]
  exact map_tolower_eq_digit s '0' (by decide)

theorem get_bool_eq_spec (v : List Char) (d : Bool) :
    plugin_get_config_bool (some ⟨v⟩) d = get_bool_spec v d := by
  have hred : plugin_get_config_bool (some ⟨v⟩) d =
      (if skip_leading_spaces v = [] then d
       else if skip_leading_spaces v = "1".data then true
       else if skip_leading_spaces v = "0".data then false
       else if strcasecmp_eq (skip_leading_spaces v) "true".data then true
       else if strcasecmp_eq (skip_leading_spaces v) "yes".data then true
       else if strcasecmp_eq (skip_leading_spaces v) "on".data then true
       else if strcasecmp_eq (skip_leading_spaces v) "false".data then false
       else if strcasecmp_eq (skip_leading_spaces v) "no".data then false
       else if strcasecmp_eq (skip_leading_spaces v) "off".data then false
       else d) := rfl
  rw [hred]
  unfold get_bool_spec
  set s := skip_leading_spaces v with hs
  clear_value s
  by_cases hnil : s = []
  · subst hnil
    simp only [if_pos rfl]
    have hfalse : ∀ w : List Char, w ≠ [] →
        strcasecmp_eq ([] : List Char) w = false := by
      intro w hw
      unfold strcasecmp_eq
      cases w with
      | nil => exact absurd rfl hw
      | cons c rest => simp
    rw [hfalse "1".data (by decide), hfalse "true".data (by decide),
      hfalse "yes".data (by decide), hfalse "on".data (by decide),
      hfalse "0".data (by decide), hfalse "false".data (by decide),
      hfalse "no".data (by decide), hfalse "off".data (by decide)]
    simp
  · rw [if_neg hnil]
    by_cases h1 : s = "1".data
    · rw [if_pos h1, if_pos (Or.inl ((strcasecmp_one_iff s).mpr h1))]
    · rw [if_neg h1]
      by_cases h0 : s = "0".data
      · subst h0
        rw [if_pos rfl]
        have ht : strcasecmp_eq ("0".data : List Char) "true".data = false := by decide
        have hy : strcasecmp_eq ("0".data : List Char) "yes".data = false := by decide
        have ho : strcasecmp_eq ("0".data : List Char) "on".data = false := by decide
        have h1' : strcasecmp_eq ("0".data : List Char) "1".data = false := by decide
        have h0' : strcasecmp_eq ("0".data : List Char) "0".data = true := by decide
        rw [h1', ht, hy, ho, h0']
        simp
      · rw [if_neg h0]
        have h1' : strcasecmp_eq s "1".data = false := by
          cases hc : strcasecmp_eq s "1".data
          · rfl
          · exact absurd ((strcasecmp_one_iff s).mp hc) h1
        have h0' : strcasecmp_eq s "0".data = false := by
          cases hc : strcasecmp_eq s "0".data
          · rfl
          · exact absurd ((strcasecmp_zero_iff s).mp hc) h0
        rw [h1', h0']
        by_cases htr : strcasecmp_eq s "true".data = true
        · rw [if_pos htr, if_pos (Or.inr (Or.inl htr))]
        · rw [if_neg htr]
          by_cases hys : strcasecmp_eq s "yes".data = true
          · rw [if_pos hys, if_pos (Or.inr (Or.inr (Or.inl hys)))]
          · rw [if_neg hys]
            by_cases hon : strcasecmp_eq s "on".data = true
            · rw [if_pos hon, if_pos (Or.inr (Or.inr (Or.inr hon)))]
            · rw [if_neg hon]
              have hnotrue : ¬ (false = true ∨ strcasecmp_eq s "true".data = true ∨
                  strcasecmp_eq s "yes".data = true ∨
                  strcasecmp_eq s "on".data = true) := by
                intro hcon
                rcases hcon with hcon | hcon | hcon | hcon
                · exact Bool.false_ne_true hcon
                · exact htr hcon
                · exact hys hcon
                · exact hon hcon
              rw [if_neg hnotrue]
              by_cases hfa : strcasecmp_eq s "false".data = true
              · rw [if_pos hfa, if_pos (Or.inr (Or.inl hfa))]
              · rw [if_neg hfa]
                by_cases hno : strcasecmp_eq s "no".data = true
                · rw [if_pos hno, if_pos (Or.inr (Or.inr (Or.inl hno)))]
                · rw [if_neg hno]
                  by_cases hoff : strcasecmp_eq s "off".data = true
                  · rw [if_pos hoff, if_pos (Or.inr (Or.inr (Or.inr hoff)))]
                  · rw [if_neg hoff]
                    have hnofalse : ¬ (false = true ∨
                        strcasecmp_eq s "false".data = true ∨
                        strcasecmp_eq s "no".data = true ∨
                        strcasecmp_eq s "off".data = true) := by
                      intro hcon
                      rcases hcon with hcon | hcon | hcon | hcon
                      · exact Bool.false_ne_true hcon
                      · exact hfa hcon
                      · exact hno hcon
                      · exact hoff hcon
                    rw [if_neg hnofalse]

/-- C8 (amended): for EVERY value, `get_bool` behaves as the spec's
case-insensitive table restricted to LEADING whitespace: a missing key
returns the default; leading whitespace never changes the result; and
stripping leading whitespace, a case-insensitive match of 1/true/yes/on
returns true, of 0/false/no/off returns false, and the empty remainder
or any other value returns the supplied default.  Trailing whitespace is
NOT trimmed (see the counterexample). -/
theorem C8_amended (ws w : List Char) (d : Bool)
    (hws : ∀ c ∈ ws, config_space c = true) :
    plugin_get_config_bool none d = d ∧
    plugin_get_config_bool (some ⟨ws ++ w⟩) d =
      plugin_get_config_bool (some ⟨w⟩) d ∧
    (∀ v : List Char, plugin_get_config_bool (some ⟨v⟩) d = get_bool_spec v d) := by
  refine ⟨rfl, ?_, fun v => get_bool_eq_spec v d⟩
  have hred : ∀ u : List Char, plugin_get_config_bool (some ⟨u⟩) d =
      (let s := skip_leading_spaces u
       if s = [] then d
       else if s = "1".data then true
       else if s = "0".data then false
       else if strcasecmp_eq s "true".data then true
       else if strcasecmp_eq s "yes".data then true
       else if strcasecmp_eq s "on".data then true
       else if strcasecmp_eq s "false".data then false
       else if strcasecmp_eq s "no".data then false
       else if strcasecmp_eq s "off".data then false
       else d) := fun u => rfl
  rw [hred (ws ++ w), hred w, skip_leading_spaces_append ws w hws]

/-- C8 amended, witnessed at leading whitespace before "yes". -/
theorem C8_amended_witness :
    (∀ c ∈ [' ', '\x09'], config_space c = true) ∧
    (plugin_get_config_bool none false = false ∧
      plugin_get_config_bool (some ⟨[' ', '\x09'] ++ "yes".data⟩) false =
        plugin_get_config_bool (some ⟨"yes".data⟩) false ∧
      (∀ v : List Char,
        plugin_get_config_bool (some ⟨v⟩) false = get_bool_spec v false)) :=
  ⟨by decide, C8_amended [' ', '\x09'] "yes".data false (by decide)⟩

end BinlogStream
